import Mathlib

/-!
Verification development for the speedrun-hq/speedrunner intent fulfiller.

The Go sources are shallowly embedded: pure decision logic becomes Lean
functions, stateful components become explicit state-passing functions,
machine integers become `Nat`/`Int` (with explicit wraparound where the Go
code can overflow), `big.Float` arithmetic on the handful of exact values
the filter manipulates becomes `ℚ`, and fallible operations return
`Option`/`Except`.  Each definition names the Go file and function it
translates.
-/

namespace Speedrunner

/-! ## Go string primitives

Models of the Go standard-library string operations the fulfiller uses:
`strings.Contains`, `strings.Split` (with a non-empty separator, the only
way the code calls it) and `strconv.Atoi` (whose error result the code
discards, leaving the zero value).
-/

/-- Model of Go `strings.HasPrefix` on character lists: `startsWith p l`
is true when `p` is a prefix of `l`. -/
def startsWith : List Char → List Char → Bool
  | [], _ => true
  | _ :: _, [] => false
  | p :: ps, c :: cs => p == c && startsWith ps cs

/-- Helper for `goContains`: does `sub` occur (contiguously) in `l`? -/
def containsAux (sub : List Char) : List Char → Bool
  | [] => startsWith sub []
  | c :: rest => startsWith sub (c :: rest) || containsAux sub rest

/-- Model of Go `strings.Contains s sub`. -/
def goContains (s sub : String) : Bool :=
  containsAux sub.data s.data

/-- Model of Go `strings.Split` on character lists, with the scan fuelled by
the input length so the definition is structural (kernel-reducible).  The
separator is consumed leftmost-first and non-overlapping, exactly as in Go.
Only non-empty separators are used by the fulfiller (`"_retry_"`). -/
def splitGoF (sep : List Char) : Nat → List Char → List (List Char)
  | _, [] => [[]]
  | 0, l => [l]
  | Nat.succ fuel, c :: rest =>
    if startsWith sep (c :: rest) && !sep.isEmpty then
      [] :: splitGoF sep fuel ((c :: rest).drop sep.length)
    else
      match splitGoF sep fuel rest with
      | [] => [[c]]
      | h :: t => (c :: h) :: t

/-- Model of Go `strings.Split s sep` (for non-empty `sep`). -/
def goSplit (s sep : String) : List String :=
  (splitGoF sep.data s.data.length s.data).map fun l => String.mk l

/-- The character list of the retry-tag separator `"_retry_"`. -/
def retrySep : List Char := ['_', 'r', 'e', 't', 'r', 'y', '_']

/-- Accumulate decimal digits; `none` when a non-digit occurs (then
`strconv.Atoi` reports an error). -/
def digitsToNat : Nat → List Char → Option Nat
  | acc, [] => some acc
  | acc, c :: rest =>
    if 48 ≤ c.toNat && c.toNat ≤ 57 then
      digitsToNat (acc * 10 + (c.toNat - 48)) rest
    else none

/-- Model of Go `n, _ = strconv.Atoi s`: the parsed integer (optional sign
followed by at least one decimal digit), or `0` when parsing fails, since
the fulfiller always discards the error.  The `int64` overflow error of
`Atoi` is not modelled; the retry counters parsed in practice are below 10. -/
def goAtoi (s : String) : Int :=
  match s.data with
  | [] => 0
  | '-' :: rest =>
    match rest, digitsToNat 0 rest with
    | _ :: _, some n => -(n : Int)
    | _, _ => 0
  | '+' :: rest =>
    match rest, digitsToNat 0 rest with
    | _ :: _, some n => (n : Int)
    | _, _ => 0
  | l =>
    match digitsToNat 0 l with
    | some n => (n : Int)
    | none => 0

/-! ## Error classification

Translation of `shouldRetryError` from `src/pkg/fulfiller/worker.go`
(lines 151–198).  Substring checks are applied in source order; note this
version of the classifier has no branch for the node-state substrings
("missing trie node", "layer stale", …), unlike the spec's table and the
duplicate drafts of the classifier elsewhere in the repository. -/
def shouldRetryError (errStr : String) : Bool × String :=
  if goContains errStr "Intent already settled" ||
      goContains errStr "Intent already fulfilled" ||
      goContains errStr "already fulfilled with these parameters" then
    (false, "already_processed")
  else if goContains errStr "connection refused" ||
      goContains errStr "timeout" ||
      goContains errStr "context deadline exceeded" ||
      goContains errStr "timed out" ||
      goContains errStr "no response" ||
      goContains errStr "EOF" then
    (true, "network_error")
  else if goContains errStr "gas required exceeds allowance" ||
      goContains errStr "insufficient funds for gas" ||
      goContains errStr "gas price too low" then
    (true, "gas_error")
  else if goContains errStr "nonce too low" ||
      goContains errStr "nonce too high" ||
      goContains errStr "replacement transaction underpriced" then
    (true, "nonce_error")
  else if goContains errStr "insufficient balance" ||
      goContains errStr "insufficient funds" then
    (false, "insufficient_funds")
  else if goContains errStr "execution reverted" then
    (false, "contract_error")
  else
    (true, "unknown_error")

/-- The six node-state trigger substrings of the spec's classification
table (the `node_state_error` row). -/
def nodeStateTrigger (s : String) : Bool :=
  goContains s "missing trie node" ||
  goContains s "layer stale" ||
  goContains s "getDeleteStateObject" ||
  goContains s "state inconsistency" ||
  goContains s "receipt not found" ||
  goContains s "block not found"

/-- Every trigger substring of the classifier rows that `worker.go` does
implement (used to express "no other row of the table fires"). -/
def otherRowTrigger (s : String) : Bool :=
  goContains s "Intent already settled" ||
  goContains s "Intent already fulfilled" ||
  goContains s "already fulfilled with these parameters" ||
  goContains s "connection refused" ||
  goContains s "timeout" ||
  goContains s "context deadline exceeded" ||
  goContains s "timed out" ||
  goContains s "no response" ||
  goContains s "EOF" ||
  goContains s "gas required exceeds allowance" ||
  goContains s "insufficient funds for gas" ||
  goContains s "gas price too low" ||
  goContains s "nonce too low" ||
  goContains s "nonce too high" ||
  goContains s "replacement transaction underpriced" ||
  goContains s "insufficient balance" ||
  goContains s "insufficient funds" ||
  goContains s "execution reverted"

/-! ## Data model

Translation of `models.Intent` and `models.RetryJob` from
`src/pkg/models/intent.go`.  `amount` and `intentFee` stay strings, as in
the Go struct (the API delivers decimal strings).  Times (`created_at`,
`NextAttempt`) are modelled as integer timestamps (Go `time.Time`
nanoseconds); the RFC-3339 text representation is outside the claims. -/
structure IntentM where
  id : String
  sourceChain : Int
  destinationChain : Int
  token : String
  amount : String
  recipient : String
  intentFee : String
  status : String
  createdAt : Int
  deriving Repr, DecidableEq

/-- Translation of `models.RetryJob` (with the `ErrorType` tag used by
`worker.go`). -/
structure RetryJobM where
  intent : IntentM
  retryCount : Int
  nextAttempt : Int
  errorType : String
  deriving Repr, DecidableEq

/-! ## BSC unit conversion

Translation of the conversion block that appears verbatim in
`src/pkg/fulfiller/fulfill.go` (lines 55–61) and
`src/pkg/fulfiller/intent_filter.go` (lines 138–143, and 86–91 for the
fee): when the source chain is BSC (id 56) the base amount is divided by
10¹², else when the destination chain is BSC it is multiplied by 10¹².
Go `big.Int.Div` is Euclidean division, which is Lean's `Int` division. -/
def convertBscUnits (sourceChain destinationChain : Int) (amount : Int) : Int :=
  if sourceChain = 56 then
    amount / 1000000000000
  else if destinationChain = 56 then
    amount * 1000000000000
  else
    amount

/-! ## Worker failure handling

Translation of the error branch of `Service.worker` from
`src/pkg/fulfiller/worker.go` (lines 53–138).  The call
`cb.RecordFailure()` is a separate component (modelled below); the worker
only consumes its boolean result, so that boolean is a parameter here. -/

/-- Go `time.Duration(math.Pow(2, float64(retryCount))) * 10 * time.Second`
capped at two minutes, in nanoseconds.  (`math.Pow(2, k)` for a negative
`k` yields a fraction that the `Duration` conversion truncates to zero.) -/
def backoffNanos (retryCount : Int) : Int :=
  let pow : Int := if retryCount < 0 then 0 else 2 ^ retryCount.toNat
  min (pow * 10 * 1000000000) (2 * 60 * 1000000000)

/-- What the worker does with a failed fulfillment, as observed through
metrics and the retry channel. -/
inductive WorkerOutcome where
  /-- `already_processed`: counted as a success, no retry. -/
  | alreadyProcessed
  /-- A retry job was pushed onto the retry channel. -/
  | scheduled (job : RetryJobM)
  /-- Retry count exhausted: the `MaxRetriesReached` counter is
  incremented and no retry job is created. -/
  | maxRetries (errorType : String)
  /-- Non-retryable error: the `PermanentErrors` counter is incremented. -/
  | permanent (errorType : String)
  /-- Retryable, but the circuit breaker just tripped: retry skipped. -/
  | circuitSkip (errorType : String)
  deriving Repr, DecidableEq

/-- The retry count the worker parses from the intent id (`worker.go`
lines 92–97): `parts := strings.Split(id, "_retry_")`, then
`Atoi(parts[1])` when there is more than one part, else 0. -/
def retryCountOfId (id : String) : Int :=
  match goSplit id "_retry_" with
  | _ :: p1 :: _ => goAtoi p1
  | _ => 0

/-- Go `parts[0]`: the id's text before the first `_retry_` tag.  (`Split`
always returns at least one part; the default is never used.) -/
def basePartOfId (id : String) : String :=
  (goSplit id "_retry_").headD ""

/-- The worker's handling of a fulfillment error (`worker.go` lines
53–138): classify, treat `already_processed` as success, then schedule a
retry only when the classification is retryable, the breaker did not just
trip, and the retry count parsed from the `_retry_` id suffix is below 3. -/
def workerHandleFailure (intent : IntentM) (errStr : String)
    (circuitTripped : Bool) (now : Int) : WorkerOutcome :=
  let res := shouldRetryError errStr
  let shouldRetry := res.1
  let errorType := res.2
  if errorType = "already_processed" then
    .alreadyProcessed
  else if shouldRetry && !circuitTripped then
    let retryCount := retryCountOfId intent.id
    if retryCount < 3 then
      .scheduled
        { intent := { intent with
            id := basePartOfId intent.id ++ "_retry_" ++ toString (retryCount + 1) }
          retryCount := retryCount + 1
          nextAttempt := now + backoffNanos retryCount
          errorType := errorType }
    else
      .maxRetries errorType
  else if !shouldRetry then
    .permanent errorType
  else
    .circuitSkip errorType

/-- The intent id after `k` retry-taggings of a base id: the base itself
for `k = 0`, else `base_retry_k` (the id shape the worker writes back
into a scheduled retry job). -/
def workerId (base : String) : Nat → String
  | 0 => base
  | Nat.succ k => base ++ "_retry_" ++ toString (k + 1)

/-- How many retry jobs a chain of fulfillment failures produces: each
event is the error message, the breaker's `RecordFailure` result and the
wall-clock time of one failed attempt of the current intent; a scheduled
retry carries its re-tagged intent into the next attempt, and any other
outcome ends the chain. -/
def scheduledRetries (intent : IntentM) : List (String × Bool × Int) → Nat
  | [] => 0
  | (e, t, now) :: rest =>
    match workerHandleFailure intent e t now with
    | .scheduled job => 1 + scheduledRetries job.intent rest
    | _ => 0

/-! ## Retry dispatch loop

Translation of the per-tick queue pass of `Service.retryHandler` from
`src/pkg/fulfiller/worker.go` (lines 226–288): fetch the pending set once
(an error leaves the lookup set empty and sets the error flag), then walk
the queue in order, dispatching at most 10 due jobs per tick. -/

/-- Go `strings.Split(id, "_retry_")[0]`: the base intent id with retry tags
stripped. -/
def baseIntentId (id : String) : String :=
  (goSplit id "_retry_").headD ""

/-- The three destinations a queued job can take during one tick. -/
structure TickOutcome where
  /-- Intents sent to the pending-job channel, in dispatch order. -/
  dispatched : List IntentM
  /-- Jobs kept in the queue for a later tick, in order. -/
  remaining : List RetryJobM
  /-- Jobs removed because the API no longer lists them as pending. -/
  droppedNotPending : List RetryJobM
  deriving Repr, DecidableEq

/-- The queue walk of `retryHandler` (lines 258–286).  `fetchErr` is
whether `fetchPendingIntents` failed; `pendingBaseIds` is the lookup set
built from a successful fetch; `processed` counts dispatches so far
(`maxProcessPerTick = 10`). -/
def processRetryQueue (now : Int) (fetchErr : Bool) (pendingBaseIds : List String) :
    List RetryJobM → Nat → TickOutcome
  | [], _ => ⟨[], [], []⟩
  | job :: rest, processed =>
    if job.nextAttempt < now then
      if processed ≥ 10 then
        let r := processRetryQueue now fetchErr pendingBaseIds rest processed
        ⟨r.dispatched, job :: r.remaining, r.droppedNotPending⟩
      else if fetchErr || pendingBaseIds.contains (baseIntentId job.intent.id) then
        let r := processRetryQueue now fetchErr pendingBaseIds rest (processed + 1)
        ⟨job.intent :: r.dispatched, r.remaining, r.droppedNotPending⟩
      else
        let r := processRetryQueue now fetchErr pendingBaseIds rest processed
        ⟨r.dispatched, r.remaining, job :: r.droppedNotPending⟩
    else
      let r := processRetryQueue now fetchErr pendingBaseIds rest processed
      ⟨r.dispatched, job :: r.remaining, r.droppedNotPending⟩

/-- One full tick of the retry dispatch loop: build the pending-id set
from the fetch result (`none` = fetch error, matching `err != nil`), then
walk the queue. -/
def retryTick (now : Int) (fetchResult : Option (List IntentM))
    (queue : List RetryJobM) : TickOutcome :=
  processRetryQueue now fetchResult.isNone
    ((fetchResult.getD []).map fun i => baseIntentId i.id) queue 0

/-! ## Circuit breaker

Translation of `src/pkg/circuitbreaker/breaker.go`.  Go wall-clock values
(`time.Now()`, `time.Since`) become an explicit `now : Int` parameter in
nanoseconds; durations are `Int` nanoseconds.  The zero `time.Time` of a
fresh breaker is modelled as timestamp 0. -/
structure CBState where
  enabled : Bool
  failureCount : Int
  failureWindow : Int
  failThreshold : Int
  resetTimeout : Int
  lastFailure : Int
  tripped : Bool
  tripTime : Int
  deriving Repr, DecidableEq

/-- Translation of `NewCircuitBreaker` (breaker.go lines 23–30). -/
def newCircuitBreaker (enabled : Bool) (threshold : Int) (window : Int)
    (resetTimeout : Int) : CBState :=
  { enabled := enabled
    failureCount := 0
    failureWindow := window
    failThreshold := threshold
    resetTimeout := resetTimeout
    lastFailure := 0
    tripped := false
    tripTime := 0 }

/-- The body of `RecordFailure` after the already-tripped check: window
reset, count increment, threshold check (breaker.go lines 54–71). -/
def recordFailureBody (now : Int) (cb : CBState) : CBState × Bool :=
  let cb := if now - cb.lastFailure > cb.failureWindow then
      { cb with failureCount := 0 } else cb
  let cb := { cb with failureCount := cb.failureCount + 1, lastFailure := now }
  if cb.failureCount ≥ cb.failThreshold then
    ({ cb with tripped := true, tripTime := now }, true)
  else
    (cb, false)

/-- Translation of `RecordFailure` (breaker.go lines 33–72); the boolean is its return
value ("tripped"). -/
def recordFailure (now : Int) (cb : CBState) : CBState × Bool :=
  if !cb.enabled then
    (cb, false)
  else if cb.tripped then
    if now - cb.tripTime > cb.resetTimeout then
      recordFailureBody now { cb with tripped := false, failureCount := 0 }
    else
      (cb, true)
  else
    recordFailureBody now cb

/-- Translation of `IsOpen` (breaker.go lines 75–91); mutates the state on the
auto-close path. -/
def isOpen (now : Int) (cb : CBState) : CBState × Bool :=
  if !cb.enabled then
    (cb, false)
  else if cb.tripped && decide (now - cb.tripTime > cb.resetTimeout) then
    ({ cb with tripped := false, failureCount := 0 }, false)
  else
    (cb, cb.tripped)

/-- Translation of `Reset` (breaker.go lines 94–100). -/
def resetBreaker (cb : CBState) : CBState :=
  { cb with tripped := false, failureCount := 0 }

/-- The mutating operations a client can perform on a breaker, each
stamped with the wall-clock time at which it runs.  (`GetState`,
`GetTripTime` and `IsEnabled` only read under the lock and cannot change
the state.) -/
inductive CBOp where
  | record (now : Int)
  | isOpenQ (now : Int)
  | resetOp
  deriving Repr, DecidableEq

/-- The time stamped on an operation (0 for `resetOp`, which reads no
clock). -/
def CBOp.time : CBOp → Int
  | .record now => now
  | .isOpenQ now => now
  | .resetOp => 0

/-- Apply one operation to the breaker state, discarding the boolean
result. -/
def applyCBOp (cb : CBState) : CBOp → CBState
  | .record now => (recordFailure now cb).1
  | .isOpenQ now => (isOpen now cb).1
  | .resetOp => resetBreaker cb

/-- Run a sequence of operations left to right. -/
def runCBOps (cb : CBState) (ops : List CBOp) : CBState :=
  ops.foldl applyCBOp cb

/-- The non-reset operations of the claim about a disabled breaker
(`RecordFailure` and `IsOpen` calls only). -/
inductive CBQuery where
  | recordQ (now : Int)
  | openQ (now : Int)
  deriving Repr, DecidableEq

/-- Run a sequence of `RecordFailure`/`IsOpen` calls, collecting each
call's boolean result along with the final state. -/
def runCBQueries (cb : CBState) : List CBQuery → CBState × List Bool
  | [] => (cb, [])
  | .recordQ now :: rest =>
    let r := recordFailure now cb
    let t := runCBQueries r.1 rest
    (t.1, r.2 :: t.2)
  | .openQ now :: rest =>
    let r := isOpen now cb
    let t := runCBQueries r.1 rest
    (t.1, r.2 :: t.2)

/-! ## Token price cache

Translation of `TokenPriceCache` from
`src/pkg/chainclient/fee_update_routine_test.go` (the cache definition
shares that file; `Get` is lines 108–123, `Set` lines 126–134).  The cache
holds `float64` prices; `Get`/`Set` only store and return them, performing
no arithmetic, so the price carrier is modelled exactly as `ℚ`.  Wall
clock and TTL are `Int` nanoseconds as above. -/
structure CachedPrice where
  price : ℚ
  timestamp : Int
  deriving Repr, DecidableEq

/-- The `TokenPriceCache`: an id-keyed map (association list, first match
wins) plus the TTL. -/
structure TokenPriceCacheM where
  cache : List (String × CachedPrice)
  cacheTTL : Int
  deriving Repr, DecidableEq

/-- Association-list lookup, the map read `c.cache[tokenID]`. -/
def assocFind (l : List (String × CachedPrice)) (key : String) :
    Option CachedPrice :=
  match l.find? fun kv => kv.1 == key with
  | some kv => some kv.2
  | none => none

/-- Translation of `TokenPriceCache.Get`: the cached price and a hit flag; a miss when
the entry is absent or strictly older than the TTL. -/
def cacheGet (now : Int) (c : TokenPriceCacheM) (tokenID : String) : ℚ × Bool :=
  match assocFind c.cache tokenID with
  | none => (0, false)
  | some cached =>
    if now - cached.timestamp > c.cacheTTL then (0, false)
    else (cached.price, true)

/-- Translation of `TokenPriceCache.Set`: store the price with the current timestamp
(overwriting any previous entry for the id). -/
def cacheSet (now : Int) (c : TokenPriceCacheM) (tokenID : String) (price : ℚ) :
    TokenPriceCacheM :=
  { c with cache := (tokenID, ⟨price, now⟩) ::
      c.cache.filter fun kv => kv.1 != tokenID }

/-! ## Nonce manager (fulfiller package)

Translation of `NonceManager` from `src/pkg/fulfiller/nonce.go`: nonces
are a per-chain, per-address map of `uint64` values; tracked transactions
are a per-chain map keyed by transaction hash.  Addresses and hashes are
opaque strings.  `uint64` arithmetic wraps modulo 2⁶⁴ where the Go code
can underflow. -/
structure TransactionInfoF where
  address : String
  nonce : Nat
  time : Int
  deriving Repr, DecidableEq

/-- The `NonceManager` maps, as association lists (first match wins; the
Go maps have unique keys). -/
structure NonceManagerF where
  nonces : List (Int × List (String × Nat))
  txs : List (Int × List (String × TransactionInfoF))
  deriving Repr, DecidableEq

/-- Generic association-list lookup (a Go map read). -/
def alistFind {α β : Type} [BEq α] (l : List (α × β)) (key : α) : Option β :=
  match l.find? fun kv => kv.1 == key with
  | some kv => some kv.2
  | none => none

/-- Generic association-list write (a Go map assignment). -/
def alistPut {α β : Type} [BEq α] (l : List (α × β)) (key : α) (v : β) :
    List (α × β) :=
  (key, v) :: l.filter fun kv => kv.1 != key

/-- Generic association-list delete (Go `delete(m, key)`). -/
def alistDel {α β : Type} [BEq α] (l : List (α × β)) (key : α) :
    List (α × β) :=
  l.filter fun kv => kv.1 != key

/-- Go `nm.txs[chainID][txHash]`. -/
def fulTxLookup (nm : NonceManagerF) (chainID : Int) (txHash : String) :
    Option TransactionInfoF :=
  match alistFind nm.txs chainID with
  | none => none
  | some m => alistFind m txHash

/-- Go `nm.nonces[chainID][address]`. -/
def fulNonceLookup (nm : NonceManagerF) (chainID : Int) (address : String) :
    Option Nat :=
  match alistFind nm.nonces chainID with
  | none => none
  | some m => alistFind m address

/-- Go `nm.nonces[chainID][address] = v`. -/
def fulNoncePut (nm : NonceManagerF) (chainID : Int) (address : String)
    (v : Nat) : NonceManagerF :=
  let inner := alistPut ((alistFind nm.nonces chainID).getD []) address v
  { nm with nonces := alistPut nm.nonces chainID inner }

/-- Go `delete(nm.txs[chainID], txHash)`. -/
def fulTxDelete (nm : NonceManagerF) (chainID : Int) (txHash : String) :
    NonceManagerF :=
  let inner := alistDel ((alistFind nm.txs chainID).getD []) txHash
  { nm with txs := alistPut nm.txs chainID inner }

/-- Translation of `MarkTransactionFailed` (nonce.go lines 98–115): look up the tracked
transaction (error when absent); when the stored nonce for its address
equals the transaction's nonce, store `nonce − 1` (wrapping `uint64`
subtraction); in either case delete the transaction. -/
def markTransactionFailedF (chainID : Int) (txHash : String)
    (nm : NonceManagerF) : Except String NonceManagerF :=
  match fulTxLookup nm chainID txHash with
  | none => .error "transaction not found"
  | some txInfo =>
    let nm :=
      match fulNonceLookup nm chainID txInfo.address with
      | some storedNonce =>
        if storedNonce = txInfo.nonce then
          fulNoncePut nm chainID txInfo.address
            ((txInfo.nonce + (2 ^ 64 - 1)) % 2 ^ 64)
        else nm
      | none => nm
    .ok (fulTxDelete nm chainID txHash)

/-- Translation of `MarkTransactionConfirmed` (nonce.go lines 78–95): same shape, but the
stored nonce is advanced to `nonce + 1` (no wrap possible below 2⁶⁴ is
assumed by the code; modelled modulo 2⁶⁴). -/
def markTransactionConfirmedF (chainID : Int) (txHash : String)
    (nm : NonceManagerF) : Except String NonceManagerF :=
  match fulTxLookup nm chainID txHash with
  | none => .error "transaction not found"
  | some txInfo =>
    let nm :=
      match fulNonceLookup nm chainID txInfo.address with
      | some storedNonce =>
        if storedNonce = txInfo.nonce then
          fulNoncePut nm chainID txInfo.address ((txInfo.nonce + 1) % 2 ^ 64)
        else nm
      | none => nm
    .ok (fulTxDelete nm chainID txHash)

/-- Specification-side helper (not in nonce.go): the minimum nonce among
the transactions tracked for an address on a chain — the "lowest pending
nonce" that §4.8 of the specification says `markFailed` must compare
against. -/
def lowestPendingNonceF (nm : NonceManagerF) (chainID : Int)
    (address : String) : Option Nat :=
  (((alistFind nm.txs chainID).getD []).filterMap fun kv =>
    if kv.2.address == address then some kv.2.nonce else none).min?

/-! ## Nonce manager (blockchain package draft)

Translation of the duplicate `NonceManager` draft in the repository's
`blockchain` package (`src/unnamed/part_025`), whose `MarkTransactionFailed`
(lines 187–226) implements the lowest-pending-nonce reuse rule the
specification describes.  Pending transactions are keyed by nonce. -/
structure TransactionRecordB where
  hash : String
  nonce : Nat
  createdAt : Int
  updatedAt : Int
  /-- 0 = pending, 1 = confirmed, 2 = failed, 3 = timed out. -/
  status : Nat
  deriving Repr, DecidableEq

/-- The `chainNonceData` of one chain: the allocation counter and the
pending-transaction map. -/
structure ChainNonceDataB where
  currentNonce : Nat
  pendingTxs : List (Nat × TransactionRecordB)
  deriving Repr, DecidableEq

/-- Translation of `getLowestPendingNonce` (part_025 lines 323–335): minimum key of the
pending map, or 0 when the map is empty. -/
def getLowestPendingNonceB (cd : ChainNonceDataB) : Nat :=
  ((cd.pendingTxs.map fun kv => kv.1).min?).getD 0

/-- Translation of `MarkTransactionFailed` of the blockchain draft (part_025 lines
187–226): returns the freed nonce when it was the lowest pending (and
rewinds `currentNonce` to it), else 0; the record is deleted either way. -/
def markTransactionFailedB (now : Int) (cd : ChainNonceDataB) (nonce : Nat) :
    ChainNonceDataB × Nat :=
  match alistFind cd.pendingTxs nonce with
  | none => (cd, 0)
  | some tx =>
    let failedTx : TransactionRecordB := { tx with status := 2, updatedAt := now }
    let cd := { cd with pendingTxs := alistPut cd.pendingTxs nonce failedTx }
    let lowestPending := getLowestPendingNonceB cd
    let cleaned := alistDel cd.pendingTxs nonce
    if nonce = lowestPending then
      ({ cd with currentNonce := nonce, pendingTxs := cleaned }, nonce)
    else
      ({ cd with pendingTxs := cleaned }, 0)

/-! ## Intent filter balance predicate

Translation of `IntentFilter.hasSufficientBalance` and
`IntentFilter.getTokenBalance` from `src/pkg/fulfiller/intent_filter.go`
(lines 106–148 and 151–186).  The chain-client collaborators (token table
lookup, `BalanceOf`, `Decimals`) are environment functions; a `none`
result is a chain-client error, which the predicate absorbs by rejecting.
`big.Float` values are modelled as `ℚ`: the only float computation is
`rawBalance / 10^decimals` followed by one comparison, and every concrete
input used below is exactly representable, so no rounding is lost. -/
structure FilterEnv where
  /-- `getTokenTypeFromAddress` via the token manager; `""` = unknown. -/
  tokenTypeOf : String → String
  /-- `tokenManager.GetToken(chain, type)`, returning the configured token
  address. -/
  tokenAddrOf : Int → String → Option String
  /-- Whether `filter.config.Chains[chainID]` exists. -/
  chainConfigured : Int → Bool
  /-- `token.BalanceOf(fulfillerAddress)` in base units; `none` = RPC
  error. -/
  rawBalanceOf : Int → String → Option Int
  /-- `token.Decimals()`; `none` = RPC error. -/
  decimalsOf : Int → String → Option Nat

/-- Model of `big.Int.SetString(s, 10)`: an optional sign followed by at
least one decimal digit. -/
def goParseBigInt (s : String) : Option Int :=
  match s.data with
  | [] => none
  | '-' :: rest =>
    match rest, digitsToNat 0 rest with
    | _ :: _, some n => some (-(n : Int))
    | _, _ => none
  | '+' :: rest =>
    match rest, digitsToNat 0 rest with
    | _ :: _, some n => some ((n : Int))
    | _, _ => none
  | l =>
    match digitsToNat 0 l with
    | some n => some ((n : Int))
    | none => none

/-- Translation of `getTokenBalance` (intent_filter.go lines 151–186): the raw balance
divided by `10^decimals` ("normalize balance by dividing by 10^decimals"),
i.e. the balance in human units, not base units. -/
def getTokenBalance (env : FilterEnv) (chainID : Int) (tokenAddress : String) :
    Option ℚ :=
  if !env.chainConfigured chainID then none
  else
    match env.rawBalanceOf chainID tokenAddress,
        env.decimalsOf chainID tokenAddress with
    | some raw, some dec => some ((raw : ℚ) / 10 ^ dec)
    | _, _ => none

/-- Translation of `hasSufficientBalance` (intent_filter.go lines 106–148): resolve the
token type and configured token, fetch the normalized balance, parse the
intent amount, apply the BSC unit conversion, and accept when
`balance.Cmp(amountFloat) >= 0`. -/
def hasSufficientBalance (env : FilterEnv) (intent : IntentM) : Bool :=
  let tokenType := env.tokenTypeOf intent.token
  if tokenType = "" then false
  else
    match env.tokenAddrOf intent.destinationChain tokenType with
    | none => false
    | some tokenAddress =>
      match getTokenBalance env intent.destinationChain tokenAddress with
      | none => false
      | some balance =>
        match goParseBigInt intent.amount with
        | none => false
        | some amount0 =>
          let amount :=
            convertBscUnits intent.sourceChain intent.destinationChain amount0
          decide (balance ≥ (amount : ℚ))

/-! ## API client response handling

Translation of the response-shape handling of `Client.FetchPendingIntents`
from `src/pkg/srunclient/srunclient.go` (lines 43–120).  The HTTP exchange
is abstracted to the status code and the parsed JSON body; JSON numbers
are restricted to integers (all numeric fields involved are integral).
`encoding/json` behaviour modelled: absent object fields keep the Go zero
value, `null` leaves the zero value, a type mismatch fails the whole
unmarshal. -/
inductive JVal where
  | jnull
  | jbool (b : Bool)
  | jnum (n : Int)
  | jstr (s : String)
  | jarr (elems : List JVal)
  | jobj (fields : List (String × JVal))

/-- Lookup of a JSON object field (keys assumed unique, as produced by the
API). -/
def jlookup (fields : List (String × JVal)) (key : String) : Option JVal :=
  match fields.find? fun kv => kv.1 == key with
  | some kv => some kv.2
  | none => none

/-- Unmarshal an optional field into a Go `string`. -/
def jfieldStr (fields : List (String × JVal)) (key : String) : Option String :=
  match jlookup fields key with
  | none => some ""
  | some .jnull => some ""
  | some (.jstr s) => some s
  | some _ => none

/-- Unmarshal an optional field into a Go `int`. -/
def jfieldInt (fields : List (String × JVal)) (key : String) : Option Int :=
  match jlookup fields key with
  | none => some 0
  | some .jnull => some 0
  | some (.jnum n) => some n
  | some _ => none

/-- Unmarshal one JSON value into a `models.Intent` (the `created_at`
RFC-3339 string is abstracted to its integer timestamp). -/
def decodeIntent (v : JVal) : Option IntentM :=
  match v with
  | .jobj fields =>
    match jfieldStr fields "id", jfieldInt fields "source_chain",
        jfieldInt fields "destination_chain", jfieldStr fields "token",
        jfieldStr fields "amount", jfieldStr fields "recipient",
        jfieldStr fields "intent_fee", jfieldStr fields "status",
        jfieldInt fields "created_at" with
    | some id, some src, some dst, some tok, some amt, some rcp, some fee,
        some st, some ca =>
      some ⟨id, src, dst, tok, amt, rcp, fee, st, ca⟩
    | _, _, _, _, _, _, _, _, _ => none
  | _ => none

/-- Unmarshal a JSON value into `[]models.Intent`. -/
def decodeIntentList (v : JVal) : Option (List IntentM) :=
  match v with
  | .jnull => some []
  | .jarr xs => xs.mapM decodeIntent
  | _ => none

/-- Unmarshal an optional field into `[]models.Intent`. -/
def jfieldIntents (fields : List (String × JVal)) (key : String) :
    Option (List IntentM) :=
  match jlookup fields key with
  | none => some []
  | some v => decodeIntentList v

/-- The `APIResponse` wrapper struct of srunclient.go (lines 16–24). -/
structure APIResponseM where
  intents : List IntentM
  dataField : List IntentM
  results : List IntentM
  page : Int
  pageSize : Int
  totalCount : Int
  totalPages : Int
  deriving Repr, DecidableEq

/-- Go `json.Unmarshal(body, &apiResp)`: succeeds only on an object (or
`null`), with every tagged field unmarshalling. -/
def decodeAPIResponse (v : JVal) : Option APIResponseM :=
  match v with
  | .jnull => some ⟨[], [], [], 0, 0, 0, 0⟩
  | .jobj fields =>
    match jfieldIntents fields "intents", jfieldIntents fields "data",
        jfieldIntents fields "results", jfieldInt fields "page",
        jfieldInt fields "page_size", jfieldInt fields "total_count",
        jfieldInt fields "total_pages" with
    | some ints, some dat, some res, some pg, some ps, some tc, some tp =>
      some ⟨ints, dat, res, pg, ps, tc, tp⟩
    | _, _, _, _, _, _, _ => none
  | _ => none

/-- The generic-map fallback (srunclient.go lines 92–111): the first
object field holding a non-empty array that unmarshals into a non-empty
intent list, else the empty list.  (Go iterates its map in unspecified
order; field order stands in for it, and the claims below never depend on
this branch.) -/
def genericScan : List (String × JVal) → List IntentM
  | [] => []
  | (_, v) :: rest =>
    match v with
    | .jarr xs =>
      if xs.isEmpty then genericScan rest
      else
        match decodeIntentList (.jarr xs) with
        | some l => if l.isEmpty then genericScan rest else l
        | none => genericScan rest
    | _ => genericScan rest

/-- Translation of `FetchPendingIntents` (srunclient.go lines 43–120), from the point
where the response status and body are known. -/
def fetchPendingIntentsM (statusCode : Int) (body : JVal) :
    Except String (List IntentM) :=
  if statusCode ≠ 200 then .error "unexpected status code"
  else
    match decodeAPIResponse body with
    | none =>
      match decodeIntentList body with
      | some ints => .ok ints
      | none => .error "failed to decode intents"
    | some apiResp =>
      if apiResp.totalCount = 0 then .ok []
      else if !apiResp.intents.isEmpty then .ok apiResp.intents
      else if !apiResp.dataField.isEmpty then .ok apiResp.dataField
      else if !apiResp.results.isEmpty then .ok apiResp.results
      else
        match body with
        | .jobj fields => .ok (genericScan fields)
        | _ => .ok []

/-! ## Concrete example states used by the theorems below -/

/-- A concrete cache for the C7 witness: one entry, TTL 300. -/
def cacheEx : TokenPriceCacheM where
  cache := [("ethereum", ⟨3, 100⟩)]
  cacheTTL := 300

/-- The state invariant held from the moment a breaker trips at time `t0`
until a reset or the reset timeout: enabled, tripped, trip time `t0`,
reset timeout unchanged. -/
def TrippedAt (t0 rt : Int) (cb : CBState) : Prop :=
  cb.enabled = true ∧ cb.tripped = true ∧ cb.tripTime = t0 ∧ cb.resetTimeout = rt

/-- Nonce-manager state with two pending transactions for address `A` on
chain 1 (nonces 5 and 7) and stored next nonce 7. -/
def nonceMgrEx : NonceManagerF where
  nonces := [(1, [("A", 7)])]
  txs := [(1, [("h1", ⟨"A", 5, 0⟩), ("h2", ⟨"A", 7, 0⟩)])]

/-- State `nonceMgrEx` after `MarkTransactionFailed(1, h2)`: the stored nonce
was decremented to 6 and the transaction dropped. -/
def nonceMgrExAfter : NonceManagerF where
  nonces := [(1, [("A", 6)])]
  txs := [(1, [("h1", ⟨"A", 5, 0⟩)])]

/-- State `nonceMgrEx` after `MarkTransactionFailed(1, h1)` (the lowest pending
nonce): the stored nonce is untouched and the transaction dropped. -/
def nonceMgrExAfterLow : NonceManagerF where
  nonces := [(1, [("A", 7)])]
  txs := [(1, [("h2", ⟨"A", 7, 0⟩)])]

/-- The filter environment for the C3 exhibit: one USDC token configured
on chain 137 with 6 decimals and a raw wallet balance of 2,000,000 base
units (2 USDC). -/
def filterEnvEx : FilterEnv where
  tokenTypeOf := fun t => if t = "0xToken" then "USDC" else ""
  tokenAddrOf := fun chain ty =>
    if chain = 137 && ty = "USDC" then some "0xPolyUSDC" else none
  chainConfigured := fun chain => chain = 137
  rawBalanceOf := fun chain addr =>
    if chain = 137 && addr = "0xPolyUSDC" then some 2000000 else none
  decimalsOf := fun chain addr =>
    if chain = 137 && addr = "0xPolyUSDC" then some 6 else none

/-- An intent moving 1,000,000 base units (1 USDC) from Ethereum to
Polygon. -/
def intentEx : IntentM where
  id := "0xaa"
  sourceChain := 1
  destinationChain := 137
  token := "0xToken"
  amount := "1000000"
  recipient := "0xbb"
  intentFee := "200000"
  status := "pending"
  createdAt := 0

/-- The JSON encoding of `intentEx` as the API delivers it. -/
def intentJsonEx : JVal :=
  .jobj [("id", .jstr "0xaa"), ("source_chain", .jnum 1),
    ("destination_chain", .jnum 137), ("token", .jstr "0xToken"),
    ("amount", .jstr "1000000"), ("recipient", .jstr "0xbb"),
    ("intent_fee", .jstr "200000"), ("status", .jstr "pending"),
    ("created_at", .jnum 0)]

/-- A queued retry job due at time 0 (the intent id varies with `n`). -/
def retryJobEx (n : Nat) : RetryJobM where
  intent := { intentEx with id := "0xaa" ++ toString n }
  retryCount := 1
  nextAttempt := 0
  errorType := "network_error"

/-- Eleven due jobs — one more than the per-tick processing cap. -/
def dueQueueEx : List RetryJobM := (List.range 11).map retryJobEx

/-! ## Shared helper lemmas -/

/-- A disabled breaker answers `false` to every `RecordFailure`/`IsOpen`
call and its state never changes. -/
theorem runCBQueries_disabled (qs : List CBQuery) :
    ∀ cb : CBState, cb.enabled = false →
      runCBQueries cb qs = (cb, qs.map fun _ => false) := by
  induction qs with
  | nil => intro cb _; rfl
  | cons q rest ih =>
    intro cb h
    cases q with
    | recordQ now =>
      simp [runCBQueries, recordFailure, h, ih cb h]
    | openQ now =>
      simp [runCBQueries, isOpen, h, ih cb h]

/-! ## C8: BSC conversion symmetry -/

/-- Claim C8: for every non-negative base amount `A`, the BSC unit
normalization of the filter and the fulfillment engine multiplies by 10¹²
exactly when the destination is BSC (source ≠ BSC), and divides by 10¹²
(integer floor) when the source is BSC (destination ≠ BSC), so that
multiplying the converted amount back by 10¹² recovers `A` up to the
divisor's truncation error (strictly less than 10¹²). -/
theorem bsc_conversion_symmetry (a src dst : Int) (ha : 0 ≤ a) :
    (src ≠ 56 → dst = 56 → convertBscUnits src dst a = a * 10 ^ 12) ∧
    (src = 56 → dst ≠ 56 →
      convertBscUnits src dst a = a / 10 ^ 12 ∧
      convertBscUnits src dst a * 10 ^ 12 ≤ a ∧
      a < convertBscUnits src dst a * 10 ^ 12 + 10 ^ 12) := by
  constructor
  · intro hs hd
    simp [convertBscUnits, hs, hd]
  · intro hs hd
    have hb : (0 : Int) < 10 ^ 12 := by norm_num
    have h1 : a / (10 ^ 12 : Int) * 10 ^ 12 ≤ a :=
      Int.ediv_mul_le a (by norm_num)
    have h2 : a < (a / (10 ^ 12 : Int) + 1) * 10 ^ 12 :=
      Int.lt_ediv_add_one_mul_self a hb
    refine ⟨by simp [convertBscUnits, hs], ?_, ?_⟩
    · simpa [convertBscUnits, hs] using h1
    · have : a < a / (10 ^ 12 : Int) * 10 ^ 12 + 10 ^ 12 := by linarith
      simpa [convertBscUnits, hs] using this

/-- Witness for C8 at `A = 5·10¹² + 3` in both conversion directions. -/
theorem bsc_conversion_symmetry_witness :
    (0 : Int) ≤ 5000000000003 ∧
    convertBscUnits 1 56 5000000000003 = 5000000000003 * 10 ^ 12 ∧
    convertBscUnits 56 1 5000000000003 = 5 ∧
    convertBscUnits 56 1 5000000000003 * 10 ^ 12 ≤ 5000000000003 ∧
    5000000000003 < convertBscUnits 56 1 5000000000003 * 10 ^ 12 + 10 ^ 12 := by
  have h0 : (0 : Int) ≤ 5000000000003 := by decide
  have hmul := (bsc_conversion_symmetry 5000000000003 1 56 h0).1 (by decide) rfl
  have hdiv := (bsc_conversion_symmetry 5000000000003 56 1 h0).2 rfl (by decide)
  refine ⟨h0, hmul, ?_, hdiv.2.1, hdiv.2.2⟩
  rw [hdiv.1]
  decide

/-! ## C7: token price cache TTL -/

/-- Claim C7: for a stored entry, `TokenPriceCache.Get` returns the stored
price with `hit = true` exactly when `now − stored.timestamp ≤ TTL`; for
an id with no stored entry it returns `hit = false`. -/
theorem token_price_cache_get_iff_fresh (now : Int) (c : TokenPriceCacheM)
    (tokenID : String) :
    (∀ cached, assocFind c.cache tokenID = some cached →
      (cacheGet now c tokenID = (cached.price, true) ↔
        now - cached.timestamp ≤ c.cacheTTL)) ∧
    (assocFind c.cache tokenID = none → cacheGet now c tokenID = (0, false)) := by
  constructor
  · intro cached hc
    by_cases h : now - cached.timestamp > c.cacheTTL
    · simp only [cacheGet, hc, if_pos h]
      simp
      omega
    · simp only [cacheGet, hc, if_neg h]
      simp
      omega
  · intro h
    simp [cacheGet, h]

/-- Witness for C7: a fresh hit at `now = 250` and a miss for an absent
id. -/
theorem token_price_cache_get_iff_fresh_witness :
    cacheGet 250 cacheEx "ethereum" = (3, true) ∧
    cacheGet 250 cacheEx "bitcoin" = (0, false) := by
  constructor
  · exact ((token_price_cache_get_iff_fresh 250 cacheEx "ethereum").1
      ⟨3, 100⟩ rfl).mpr (by decide)
  · exact (token_price_cache_get_iff_fresh 250 cacheEx "bitcoin").2 rfl

/-! ## C10: disabled breaker -/

/-- Claim C10: a breaker constructed with `enabled = false` answers
`false` to every `RecordFailure` and `IsOpen` call in any sequence, its
state never changes, and in particular it never becomes open. -/
theorem disabled_breaker_never_opens (threshold window resetTimeout : Int)
    (qs : List CBQuery) :
    (runCBQueries (newCircuitBreaker false threshold window resetTimeout) qs).1 =
      newCircuitBreaker false threshold window resetTimeout ∧
    (runCBQueries (newCircuitBreaker false threshold window resetTimeout) qs).2 =
      (qs.map fun _ => false) ∧
    (runCBQueries (newCircuitBreaker false threshold window resetTimeout) qs).1.tripped
      = false := by
  have h := runCBQueries_disabled qs
    (newCircuitBreaker false threshold window resetTimeout) rfl
  refine ⟨by rw [h], by rw [h], by rw [h]; rfl⟩

/-! ## C6: breaker monotone trip -/

/-- When `recordFailureBody` reports a trip, the resulting state is
tripped with trip time `now`, and `enabled`/`resetTimeout` are
untouched. -/
theorem recordFailureBody_of_tripped (now : Int) (cb : CBState)
    (h : (recordFailureBody now cb).2 = true) :
    (recordFailureBody now cb).1.enabled = cb.enabled ∧
    (recordFailureBody now cb).1.tripped = true ∧
    (recordFailureBody now cb).1.tripTime = now ∧
    (recordFailureBody now cb).1.resetTimeout = cb.resetTimeout := by
  by_cases hw : now - cb.lastFailure > cb.failureWindow
  · simp only [recordFailureBody, if_pos hw] at h ⊢
    split at h <;> simp_all
  · simp only [recordFailureBody, if_neg hw] at h ⊢
    split at h <;> simp_all

/-- A freshly-tripping `RecordFailure` (returning true from a non-tripped
state) leaves the breaker in the `TrippedAt` invariant. -/
theorem recordFailure_trips (cb : CBState) (t0 : Int)
    (hfresh : cb.tripped = false)
    (htrip : (recordFailure t0 cb).2 = true) :
    TrippedAt t0 cb.resetTimeout (recordFailure t0 cb).1 := by
  by_cases he : cb.enabled = true
  · have hred : recordFailure t0 cb = recordFailureBody t0 cb := by
      simp [recordFailure, he, hfresh]
    rw [hred] at htrip ⊢
    obtain ⟨h1, h2, h3, h4⟩ := recordFailureBody_of_tripped t0 cb htrip
    exact ⟨h1.trans he, h2, h3, h4⟩
  · have he' : cb.enabled = false := by simpa using he
    simp [recordFailure, he'] at htrip

/-- Every non-reset operation executed while `now − t0 ≤ resetTimeout`
preserves the `TrippedAt` invariant. -/
theorem applyCBOp_preserves (t0 rt : Int) (cb : CBState) (op : CBOp)
    (hinv : TrippedAt t0 rt cb)
    (hnr : op ≠ CBOp.resetOp) (ht : op.time - t0 ≤ rt) :
    TrippedAt t0 rt (applyCBOp cb op) := by
  obtain ⟨he, htr, htt, hrt⟩ := hinv
  cases op with
  | record now =>
    have hts : (CBOp.record now).time = now := rfl
    rw [hts] at ht
    have hcl : ¬ (rt < now - t0) := by omega
    simp [applyCBOp, recordFailure, he, htr, htt, hrt, hcl, TrippedAt]
  | isOpenQ now =>
    have hts : (CBOp.isOpenQ now).time = now := rfl
    rw [hts] at ht
    have hcl : ¬ (rt < now - t0) := by omega
    simp [applyCBOp, isOpen, he, htr, htt, hrt, hcl, TrippedAt]
  | resetOp => exact absurd rfl hnr

/-- The invariant is preserved by a whole sequence of non-reset
operations within the reset timeout. -/
theorem runCBOps_preserves (t0 rt : Int) (ops : List CBOp) :
    ∀ cb : CBState, TrippedAt t0 rt cb →
      (∀ op ∈ ops, op ≠ CBOp.resetOp ∧ op.time - t0 ≤ rt) →
      TrippedAt t0 rt (runCBOps cb ops) := by
  induction ops with
  | nil => intro cb hinv _; exact hinv
  | cons op rest ih =>
    intro cb hinv hops
    have h1 := hops op (by simp)
    have h2 : ∀ o ∈ rest, o ≠ CBOp.resetOp ∧ o.time - t0 ≤ rt := by
      intro o ho; exact hops o (by simp [ho])
    exact ih (applyCBOp cb op) (applyCBOp_preserves t0 rt cb op hinv h1.1 h1.2) h2

/-- Claim C6: once `RecordFailure` trips the breaker (returns true from a
non-tripped state at time `t0`), any sequence of further `RecordFailure`
and `IsOpen` calls within the reset timeout leaves it open: `IsOpen`
answers true at every time `t` with `t − t0 ≤ resetTimeout`.  It stops
answering true only through the two permitted exits: `IsOpen` at a time
with `t − t0 > resetTimeout` auto-closes (answers false), and `Reset`
closes it unconditionally. -/
theorem breaker_monotone_trip (cb : CBState) (t0 : Int) (ops : List CBOp)
    (hfresh : cb.tripped = false)
    (htrip : (recordFailure t0 cb).2 = true)
    (hops : ∀ op ∈ ops, op ≠ CBOp.resetOp ∧ op.time - t0 ≤ cb.resetTimeout) :
    ∀ t : Int,
      (t - t0 ≤ cb.resetTimeout →
        (isOpen t (runCBOps (recordFailure t0 cb).1 ops)).2 = true) ∧
      (t - t0 > cb.resetTimeout →
        (isOpen t (runCBOps (recordFailure t0 cb).1 ops)).2 = false) ∧
      (isOpen t (resetBreaker (runCBOps (recordFailure t0 cb).1 ops))).2 = false := by
  have hinv := runCBOps_preserves t0 cb.resetTimeout ops (recordFailure t0 cb).1
    (recordFailure_trips cb t0 hfresh htrip) hops
  obtain ⟨he, htr, htt, hrt⟩ := hinv
  intro t
  refine ⟨?_, ?_, ?_⟩
  · intro hle
    have hcl : ¬ t - (runCBOps (recordFailure t0 cb).1 ops).tripTime >
        (runCBOps (recordFailure t0 cb).1 ops).resetTimeout := by
      rw [htt, hrt]; omega
    simp [isOpen, he, htr, hcl]
  · intro hgt
    have hcl : t - (runCBOps (recordFailure t0 cb).1 ops).tripTime >
        (runCBOps (recordFailure t0 cb).1 ops).resetTimeout := by
      rw [htt, hrt]; omega
    simp [isOpen, he, htr, hcl]
  · simp [isOpen, resetBreaker, he]

/-- Witness for C6: threshold 1, window 1000, reset timeout 1000; a
failure at time 0 trips; `record` at 500 and `isOpen` at 600 keep it
open; `isOpen` at 900 answers true, at 2000 answers false, and after
`Reset` answers false. -/
theorem breaker_monotone_trip_witness :
    ((newCircuitBreaker true 1 1000 1000).tripped = false ∧
      (recordFailure 0 (newCircuitBreaker true 1 1000 1000)).2 = true) ∧
    (isOpen 900 (runCBOps (recordFailure 0 (newCircuitBreaker true 1 1000 1000)).1
      [CBOp.record 500, CBOp.isOpenQ 600])).2 = true ∧
    (isOpen 2000 (runCBOps (recordFailure 0 (newCircuitBreaker true 1 1000 1000)).1
      [CBOp.record 500, CBOp.isOpenQ 600])).2 = false ∧
    (isOpen 900 (resetBreaker (runCBOps
      (recordFailure 0 (newCircuitBreaker true 1 1000 1000)).1
      [CBOp.record 500, CBOp.isOpenQ 600]))).2 = false := by
  have h := breaker_monotone_trip (newCircuitBreaker true 1 1000 1000) 0
    [CBOp.record 500, CBOp.isOpenQ 600] rfl (by decide) (by decide)
  exact ⟨⟨rfl, by decide⟩, (h 900).1 (by decide), (h 2000).2.1 (by decide),
    (h 900).2.2⟩

/-! ## C1: nonce reuse on failure -/

/-- Claim C1 exhibit: `MarkTransactionFailed` of
`src/pkg/fulfiller/nonce.go` does not implement the lowest-pending-nonce
reuse rule.  With pending nonces {5, 7} for address `A` and stored next
nonce 7, failing the transaction at nonce 7 — which is *not* the lowest
pending (the minimum is 5) — changes the stored next nonce from 7 to 6,
where the claim (and §4.8 of the specification) requires it to stay 7;
and failing the transaction at nonce 5 — which *is* the lowest pending —
leaves the stored next nonce at 7, where the claim requires it to become
5 for reuse. -/
theorem mark_failed_ignores_lowest_pending_bug :
    markTransactionFailedF 1 "h2" nonceMgrEx = .ok nonceMgrExAfter ∧
    fulNonceLookup nonceMgrExAfter 1 "A" = some 6 ∧
    lowestPendingNonceF nonceMgrEx 1 "A" = some 5 ∧
    (7 : Nat) ≠ 5 ∧ (6 : Nat) ≠ 7 ∧
    markTransactionFailedF 1 "h1" nonceMgrEx = .ok nonceMgrExAfterLow ∧
    fulNonceLookup nonceMgrExAfterLow 1 "A" = some 7 ∧
    (5 : Nat) ≠ 7 := by
  refine ⟨rfl, by decide, by decide, by decide, by decide, rfl, by decide,
    by decide⟩

/-- Supporting fact: the duplicate `blockchain`-package draft of the
nonce manager in this repository *does* implement the rule C1 describes.
At the analogous state (pending nonces {5, 7}, allocation counter 8),
failing nonce 7 returns 0 and leaves the counter at 8, while failing
nonce 5 — the lowest pending — returns 5 and rewinds the counter to 5. -/
theorem blockchain_mark_failed_reuses_lowest :
    (markTransactionFailedB 0 ⟨8, [(5, ⟨"h1", 5, 0, 0, 0⟩), (7, ⟨"h2", 7, 0, 0, 0⟩)]⟩ 7).2 = 0 ∧
    (markTransactionFailedB 0 ⟨8, [(5, ⟨"h1", 5, 0, 0, 0⟩), (7, ⟨"h2", 7, 0, 0, 0⟩)]⟩ 7).1.currentNonce = 8 ∧
    (markTransactionFailedB 0 ⟨8, [(5, ⟨"h1", 5, 0, 0, 0⟩), (7, ⟨"h2", 7, 0, 0, 0⟩)]⟩ 5).2 = 5 ∧
    (markTransactionFailedB 0 ⟨8, [(5, ⟨"h1", 5, 0, 0, 0⟩), (7, ⟨"h2", 7, 0, 0, 0⟩)]⟩ 5).1.currentNonce = 5 := by
  refine ⟨by decide, by decide, by decide, by decide⟩

/-! ## C3: balance predicate units -/

/-- Claim C3 exhibit: the balance predicate compares the
decimals-normalized balance (human units) against the base-unit amount.
The wallet holds 2,000,000 base units, twice the transferred 1,000,000
base units, so under the claim the intent must pass; the code normalizes
the balance to 2 (= 2,000,000 / 10⁶) and rejects, because 2 < 1,000,000. -/
theorem balance_filter_unit_mismatch_bug :
    hasSufficientBalance filterEnvEx intentEx = false ∧
    filterEnvEx.rawBalanceOf 137 "0xPolyUSDC" = some 2000000 ∧
    goParseBigInt intentEx.amount = some 1000000 ∧
    convertBscUnits intentEx.sourceChain intentEx.destinationChain 1000000 = 1000000 ∧
    ¬ ((2000000 : Int) < 1000000) ∧
    getTokenBalance filterEnvEx 137 "0xPolyUSDC" = some 2 := by
  have hparse : goParseBigInt "1000000" = some 1000000 := by decide
  refine ⟨?_, by decide, hparse, by decide, by decide, ?_⟩
  · norm_num [hasSufficientBalance, filterEnvEx, intentEx, getTokenBalance,
      hparse, convertBscUnits]
  · norm_num [getTokenBalance, filterEnvEx]

/-! ## C4: response-shape tolerance -/

/-- Claim C4 exhibit: a 200 response whose body is the object
`{"intents": [<valid intent>]}` with no pagination fields is answered
with the *empty* list — the absent `total_count` decodes to 0 and the
"paginated response with no data" early return fires — where the claim
requires the one-element array.  Adding `"total_count": 1` makes the same
body yield the array, isolating the pagination fields as the cause. -/
theorem fetch_pending_unpaginated_dropped_bug :
    decodeIntent intentJsonEx = some intentEx ∧
    fetchPendingIntentsM 200 (.jobj [("intents", .jarr [intentJsonEx])]) = .ok [] ∧
    fetchPendingIntentsM 200 (.jobj [("intents", .jarr [intentJsonEx]),
      ("total_count", .jnum 1)]) = .ok [intentEx] ∧
    ([] : List IntentM) ≠ [intentEx] := by
  refine ⟨rfl, rfl, rfl, by decide⟩

/-! ## C2: error classification table -/

/-- Claim C2 counterexample: the error message "missing trie node"
contains a node-state trigger substring, yet `shouldRetryError` of
`worker.go` classifies it as `unknown_error` (retryable), not as
`node_state_error` — this version of the classifier has no
`node_state_error` row at all. -/
theorem node_state_kind_missing_cex :
    goContains "missing trie node" "missing trie node" = true ∧
    nodeStateTrigger "missing trie node" = true ∧
    shouldRetryError "missing trie node" ≠ (true, "node_state_error") ∧
    shouldRetryError "missing trie node" = (true, "unknown_error") := by
  refine ⟨by decide, by decide, by decide, by decide⟩

/-- Claim C2 as amended: `worker.go`'s `shouldRetryError` has no
`node_state_error` kind; an error message containing one of the six
node-state substrings of the spec's table, and none of the trigger
substrings of the rows the classifier does implement, falls through to
the default row and is classified `unknown_error` with
`retryable = true`. -/
theorem node_state_strings_fall_to_unknown (s : String)
    (hn : nodeStateTrigger s = true) (ho : otherRowTrigger s = false) :
    shouldRetryError s = (true, "unknown_error") := by
  unfold otherRowTrigger at ho
  simp only [Bool.or_eq_false_iff] at ho
  obtain ⟨⟨⟨⟨⟨⟨⟨⟨⟨⟨⟨⟨⟨⟨⟨⟨⟨h1, h2⟩, h3⟩, h4⟩, h5⟩, h6⟩, h7⟩, h8⟩, h9⟩,
    h10⟩, h11⟩, h12⟩, h13⟩, h14⟩, h15⟩, h16⟩, h17⟩, h18⟩ := ho
  simp [shouldRetryError, h1, h2, h3, h4, h5, h6, h7, h8, h9, h10, h11, h12,
    h13, h14, h15, h16, h17, h18]

/-- Witness for the amended C2 at the message "missing trie node". -/
theorem node_state_strings_fall_to_unknown_witness :
    nodeStateTrigger "missing trie node" = true ∧
    otherRowTrigger "missing trie node" = false ∧
    shouldRetryError "missing trie node" = (true, "unknown_error") := by
  refine ⟨by decide, by decide,
    node_state_strings_fall_to_unknown "missing trie node" (by decide) (by decide)⟩

/-! ## C9: retry revalidation on fetch error -/

/-- When the revalidation fetch failed, a tick dispatches exactly the
first `10 − processed` due jobs (in order) and drops nothing. -/
theorem processRetryQueue_fetch_error (now : Int) (pend : List String) :
    ∀ (queue : List RetryJobM) (processed : Nat),
      (processRetryQueue now true pend queue processed).dispatched =
        ((queue.filter fun j => decide (j.nextAttempt < now)).take
          (10 - processed)).map (fun j => j.intent) ∧
      (processRetryQueue now true pend queue processed).droppedNotPending = [] := by
  intro queue
  induction queue with
  | nil => intro processed; simp [processRetryQueue]
  | cons job rest ih =>
    intro processed
    by_cases hdue : job.nextAttempt < now
    · by_cases hcap : processed ≥ 10
      · have h10 : 10 - processed = 0 := by omega
        have h10b : 10 - (processed + 1) = 0 := by omega
        simp only [processRetryQueue, if_pos hdue, if_pos hcap]
        simp [ih processed, hdue, h10]
      · have h1 : 10 - processed = (10 - (processed + 1)) + 1 := by omega
        simp only [processRetryQueue, if_pos hdue, if_neg hcap, Bool.true_or,
          if_pos]
        simp [ih (processed + 1), hdue, h1]
    · simp only [processRetryQueue, if_neg hdue]
      simp [ih processed, hdue]

/-- A job lands in `droppedNotPending` only when it was due, the fetch
succeeded, and its base id is absent from the pending-id set. -/
theorem processRetryQueue_dropped_mem (now : Int) (fetchErr : Bool)
    (pend : List String) :
    ∀ (queue : List RetryJobM) (processed : Nat) (j : RetryJobM),
      j ∈ (processRetryQueue now fetchErr pend queue processed).droppedNotPending →
      j ∈ queue ∧ j.nextAttempt < now ∧ fetchErr = false ∧
        pend.contains (baseIntentId j.intent.id) = false := by
  intro queue
  induction queue with
  | nil =>
    intro processed j h
    simp [processRetryQueue] at h
  | cons job rest ih =>
    intro processed j h
    by_cases hdue : job.nextAttempt < now
    · by_cases hcap : processed ≥ 10
      · simp only [processRetryQueue, if_pos hdue, if_pos hcap] at h
        obtain ⟨h1, h2, h3, h4⟩ := ih processed j h
        exact ⟨List.mem_cons_of_mem _ h1, h2, h3, h4⟩
      · by_cases hsel :
            (fetchErr || pend.contains (baseIntentId job.intent.id)) = true
        · simp only [processRetryQueue, if_pos hdue, if_neg hcap,
            if_pos hsel] at h
          obtain ⟨h1, h2, h3, h4⟩ := ih (processed + 1) j h
          exact ⟨List.mem_cons_of_mem _ h1, h2, h3, h4⟩
        · simp only [processRetryQueue, if_pos hdue, if_neg hcap,
            if_neg hsel] at h
          have hff : fetchErr = false ∧ baseIntentId job.intent.id ∉ pend := by
            simpa using hsel
          rcases List.mem_cons.mp h with rfl | hmem
          · exact ⟨List.mem_cons_self _ _, hdue, hff.1, by simpa using hff.2⟩
          · obtain ⟨h1, h2, h3, h4⟩ := ih processed j hmem
            exact ⟨List.mem_cons_of_mem _ h1, h2, h3, h4⟩
    · simp only [processRetryQueue, if_neg hdue] at h
      obtain ⟨h1, h2, h3, h4⟩ := ih processed j h
      exact ⟨List.mem_cons_of_mem _ h1, h2, h3, h4⟩

/-- Claim C9 counterexample: with eleven due jobs queued and the
revalidation fetch failing, the tick re-enqueues only ten of them; the
eleventh due job is kept in the queue, not re-enqueued — so "every queued
job whose next-attempt time has passed is re-enqueued" fails as stated. -/
theorem retry_error_path_cap_cex :
    (retryTick 1 none dueQueueEx).dispatched.length = 10 ∧
    (retryTick 1 none dueQueueEx).remaining = [retryJobEx 10] ∧
    (retryJobEx 10).nextAttempt < 1 ∧
    (retryJobEx 10) ∈ dueQueueEx ∧
    ¬ (retryJobEx 10).intent ∈ (retryTick 1 none dueQueueEx).dispatched := by
  refine ⟨by decide, by decide, by decide, by decide, by decide⟩

/-- Claim C9 as amended: when the revalidation fetch fails, no job is
dropped for not being pending and the due jobs are re-enqueued in order
up to the per-tick cap of 10 (any further due jobs stay in the queue for
the next tick); a job is dropped for not being pending only when the
fetch succeeded, the job was due, and its base intent id is absent from
the fetched pending set. -/
theorem retry_revalidation_on_fetch_error (now : Int) (queue : List RetryJobM) :
    ((retryTick now none queue).dispatched =
      ((queue.filter fun j => decide (j.nextAttempt < now)).take 10).map
        (fun j => j.intent) ∧
      (retryTick now none queue).droppedNotPending = []) ∧
    (∀ (fetchResult : Option (List IntentM)) (j : RetryJobM),
      j ∈ (retryTick now fetchResult queue).droppedNotPending →
      fetchResult.isNone = false ∧ j ∈ queue ∧ j.nextAttempt < now ∧
        ((fetchResult.getD []).map fun i => baseIntentId i.id).contains
          (baseIntentId j.intent.id) = false) := by
  constructor
  · have h := processRetryQueue_fetch_error now
      (((none : Option (List IntentM)).getD []).map fun i => baseIntentId i.id)
      queue 0
    exact ⟨h.1, h.2⟩
  · intro fetchResult j h
    simp only [retryTick] at h
    have hm := processRetryQueue_dropped_mem now fetchResult.isNone
      ((fetchResult.getD []).map fun i => baseIntentId i.id) queue 0 j h
    exact ⟨hm.2.2.1, hm.1, hm.2.1, hm.2.2.2⟩

/-- Witness for the amended C9: a single due job is dispatched when the
fetch fails, and is dropped precisely when the fetch succeeds with a
pending set not containing its base id. -/
theorem retry_revalidation_on_fetch_error_witness :
    (retryTick 1 none [retryJobEx 0]).dispatched = [(retryJobEx 0).intent] ∧
    (some ([] : List IntentM)).isNone = false ∧
    retryJobEx 0 ∈ [retryJobEx 0] ∧ (retryJobEx 0).nextAttempt < 1 ∧
    (((some ([] : List IntentM)).getD []).map fun i =>
      baseIntentId i.id).contains (baseIntentId (retryJobEx 0).intent.id)
      = false := by
  have h := retry_revalidation_on_fetch_error 1 [retryJobEx 0]
  have h2 := h.2 (some []) (retryJobEx 0) (by decide)
  refine ⟨?_, h2.1, h2.2.1, h2.2.2.1, h2.2.2.2⟩
  rw [h.1.1]
  decide

/-! ## C5: retry cap — split-function lemmas -/

/-- Any list starts with itself. -/
theorem startsWith_append (p l : List Char) : startsWith p (p ++ l) = true := by
  induction p with
  | nil => rfl
  | cons c cs ih => simp [startsWith, ih]

/-- The fuel of `splitGoF` is irrelevant once it covers the input
length. -/
theorem splitGoF_fuel (sep : List Char) :
    ∀ fuel fuel' l, l.length ≤ fuel → l.length ≤ fuel' →
      splitGoF sep fuel l = splitGoF sep fuel' l := by
  intro fuel
  induction fuel with
  | zero =>
    intro fuel' l h _
    have hl : l = [] := List.length_eq_zero.mp (Nat.le_zero.mp h)
    subst hl
    cases fuel' <;> rfl
  | succ f ih =>
    intro fuel' l h h'
    cases l with
    | nil => cases fuel' <;> rfl
    | cons c rest =>
      cases fuel' with
      | zero => simp at h'
      | succ f' =>
        simp only [splitGoF]
        by_cases hc : (startsWith sep (c :: rest) && !sep.isEmpty) = true
        · rw [if_pos hc, if_pos hc]
          have hsep : 1 ≤ sep.length := by
            cases sep with
            | nil => simp at hc
            | cons s ss => simp
          have hd : ((c :: rest).drop sep.length).length ≤ f := by
            simp only [List.length_drop, List.length_cons]
            simp only [List.length_cons] at h
            omega
          have hd' : ((c :: rest).drop sep.length).length ≤ f' := by
            simp only [List.length_drop, List.length_cons]
            simp only [List.length_cons] at h'
            omega
          rw [ih f' _ hd hd']
        · rw [if_neg hc, if_neg hc]
          have hr : rest.length ≤ f := by simp at h; omega
          have hr' : rest.length ≤ f' := by simp at h'; omega
          rw [ih f' rest hr hr']

/-- A chunk with no underscore contains no `_retry_` separator: the split
returns it whole. -/
theorem splitGoF_no_underscore :
    ∀ (l : List Char), '_' ∉ l → ∀ fuel, l.length ≤ fuel →
      splitGoF retrySep fuel l = [l] := by
  intro l
  induction l with
  | nil => intro _ fuel _; cases fuel <;> rfl
  | cons c rest ih =>
    intro hna fuel hlen
    cases fuel with
    | zero => simp at hlen
    | succ f =>
      have hc : ('_' == c) = false := by
        have : c ≠ '_' := fun h => hna (h ▸ List.mem_cons_self c rest)
        simp [beq_eq_false_iff_ne, Ne.symm this]
      have hsw : startsWith retrySep (c :: rest) = false := by
        simp [retrySep, startsWith, hc]
      simp only [splitGoF, hsw, Bool.false_and, Bool.false_eq_true, if_false]
      rw [ih (fun hm => hna (List.mem_cons_of_mem _ hm)) f (by simp at hlen; omega)]

/-- Splitting `a ++ "_retry_" ++ b` for an underscore-free `a` yields `a`
followed by the split of `b`. -/
theorem splitGoF_retry_tag :
    ∀ (a : List Char), '_' ∉ a → ∀ (b : List Char) (fuel : Nat),
      (a ++ retrySep ++ b).length ≤ fuel →
      splitGoF retrySep fuel (a ++ retrySep ++ b) =
        a :: splitGoF retrySep b.length b := by
  intro a
  induction a with
  | nil =>
    intro _ b fuel hlen
    cases fuel with
    | zero => simp [retrySep] at hlen
    | succ f =>
      have hl : ([] : List Char) ++ retrySep ++ b =
          '_' :: (['r', 'e', 't', 'r', 'y', '_'] ++ b) := by
        simp [retrySep]
      rw [hl]
      have hsw : startsWith retrySep ('_' :: (['r', 'e', 't', 'r', 'y', '_'] ++ b))
          = true := by
        have h := startsWith_append retrySep b
        simpa [retrySep] using h
      have hcond : (startsWith retrySep ('_' :: (['r', 'e', 't', 'r', 'y', '_'] ++ b))
          && !retrySep.isEmpty) = true := by
        rw [hsw]; rfl
      simp only [splitGoF, hcond, if_true]
      have hdrop :
          ('_' :: (['r', 'e', 't', 'r', 'y', '_'] ++ b)).drop retrySep.length
            = b := by
        simp [retrySep]
      rw [hdrop]
      have hfb : b.length ≤ f := by
        rw [hl] at hlen
        simp at hlen
        omega
      rw [splitGoF_fuel _ f b.length b hfb (le_refl _)]
  | cons c a' ih =>
    intro hna b fuel hlen
    cases fuel with
    | zero => simp at hlen
    | succ f =>
      have hc : ('_' == c) = false := by
        have : c ≠ '_' := fun h => hna (h ▸ List.mem_cons_self c a')
        simp [beq_eq_false_iff_ne, Ne.symm this]
      have hl : (c :: a') ++ retrySep ++ b = c :: (a' ++ retrySep ++ b) := by
        simp
      rw [hl]
      have hsw : startsWith retrySep (c :: (a' ++ retrySep ++ b)) = false := by
        simp [retrySep, startsWith, hc]
      simp only [splitGoF, hsw, Bool.false_and, Bool.false_eq_true, if_false]
      rw [ih (fun hm => hna (List.mem_cons_of_mem _ hm)) b f
        (by rw [hl] at hlen; simp at hlen ⊢; omega)]

/-- Go `strings.Split` of an untagged (underscore-free) id. -/
theorem goSplit_base (base : String) (hb : '_' ∉ base.data) :
    goSplit base "_retry_" = [base] := by
  unfold goSplit
  have hsep : ("_retry_" : String).data = retrySep := rfl
  rw [hsep, splitGoF_no_underscore base.data hb base.data.length (le_refl _)]
  rfl

/-- Go `strings.Split` of a tagged id `base_retry_tail` with underscore-free
`base` and `tail`. -/
theorem goSplit_tag (base : String) (hb : '_' ∉ base.data) (tail : String)
    (ht : '_' ∉ tail.data) :
    goSplit (base ++ "_retry_" ++ tail) "_retry_" = [base, tail] := by
  unfold goSplit
  have hsep : ("_retry_" : String).data = retrySep := rfl
  have hd : (base ++ "_retry_" ++ tail).data =
      base.data ++ retrySep ++ tail.data := by
    rw [String.data_append, String.data_append, hsep]
  rw [hsep, hd, splitGoF_retry_tag base.data hb tail.data _ (le_refl _),
    splitGoF_no_underscore tail.data ht tail.data.length (le_refl _)]
  rfl

/-- The worker's id parsing on the ids it produces: for `k ≤ 3` retries
of an underscore-free base id, the parsed retry count is `k` and the base
part is the base id. -/
theorem retryCountOfId_workerId (base : String) (hb : '_' ∉ base.data)
    (k : Nat) (hk : k ≤ 3) :
    retryCountOfId (workerId base k) = (k : Int) ∧
    basePartOfId (workerId base k) = base := by
  have hA1 : goAtoi "1" = 1 := by decide
  have hA2 : goAtoi "2" = 2 := by decide
  have hA3 : goAtoi "3" = 3 := by decide
  have ht1 : toString (1 : Nat) = "1" := rfl
  have ht2 : toString (2 : Nat) = "2" := rfl
  have ht3 : toString (3 : Nat) = "3" := rfl
  interval_cases k
  · simp [workerId, retryCountOfId, basePartOfId, goSplit_base base hb]
  · have hs := goSplit_tag base hb "1" (by decide)
    simp [workerId, retryCountOfId, basePartOfId, ht1, hs, hA1]
  · have hs := goSplit_tag base hb "2" (by decide)
    simp [workerId, retryCountOfId, basePartOfId, ht2, hs, hA2]
  · have hs := goSplit_tag base hb "3" (by decide)
    simp [workerId, retryCountOfId, basePartOfId, ht3, hs, hA3]

/-- A retryable classification is never `already_processed`. -/
theorem shouldRetry_not_already (e : String)
    (h : (shouldRetryError e).1 = true) :
    ¬ (shouldRetryError e).2 = "already_processed" := by
  unfold shouldRetryError at h ⊢
  split_ifs at h ⊢ <;> simp_all

/-- The worker's retry decision, in terms of the parsed retry count `k`
of the current id: a retry job is scheduled iff the error is retryable,
the breaker did not just trip, and `k < 3`; a scheduled job re-tags the
id with `k + 1`; and a retryable failure at `k ≥ 3` (breaker not
tripped) takes the max-retries exit. -/
theorem workerHandleFailure_spec (intent : IntentM) (e : String) (t : Bool)
    (now : Int) (k : Int) (hrc : retryCountOfId intent.id = k) :
    ((∃ job, workerHandleFailure intent e t now = .scheduled job) ↔
      ((shouldRetryError e).1 = true ∧ t = false ∧ k < 3)) ∧
    (∀ job, workerHandleFailure intent e t now = .scheduled job →
      job.intent.id = basePartOfId intent.id ++ "_retry_" ++ toString (k + 1) ∧
      job.retryCount = k + 1) ∧
    ((shouldRetryError e).1 = true → t = false → ¬ k < 3 →
      workerHandleFailure intent e t now = .maxRetries (shouldRetryError e).2) := by
  by_cases hap : (shouldRetryError e).2 = "already_processed"
  · have hsr : (shouldRetryError e).1 = false := by
      by_contra hx
      exact shouldRetry_not_already e (by simpa using hx) hap
    simp [workerHandleFailure, hap, hsr]
  · by_cases hsr : (shouldRetryError e).1 = true
    · cases t with
      | false =>
        by_cases hk3 : k < 3
        · simp [workerHandleFailure, hap, hsr, hrc, hk3]
        · simp [workerHandleFailure, hap, hsr, hrc, hk3]
      | true =>
        simp [workerHandleFailure, hap, hsr]
    · have hsr' : (shouldRetryError e).1 = false := by simpa using hsr
      simp [workerHandleFailure, hap, hsr']

/-- Re-tagging with the next count: the worker writes
`base_retry_(k+1)`, which is `workerId base (k+1)`. -/
theorem retag_eq_workerId (base : String) (k : Nat) (hk : k < 3) :
    base ++ "_retry_" ++ toString ((k : Int) + 1) = workerId base (k + 1) := by
  interval_cases k <;> rfl

/-- A failure chain starting from the id `workerId base k` schedules at
most `3 − k` retry jobs. -/
theorem scheduledRetries_le (base : String) (hb : '_' ∉ base.data) :
    ∀ (events : List (String × Bool × Int)) (k : Nat), k ≤ 3 →
      ∀ intent : IntentM, intent.id = workerId base k →
      scheduledRetries intent events ≤ 3 - k := by
  intro events
  induction events with
  | nil => intro k _ intent _; simp [scheduledRetries]
  | cons ev rest ih =>
    intro k hk intent hid
    obtain ⟨e, t, now⟩ := ev
    have hrc : retryCountOfId intent.id = (k : Int) := by
      rw [hid]; exact (retryCountOfId_workerId base hb k hk).1
    have hbp : basePartOfId intent.id = base := by
      rw [hid]; exact (retryCountOfId_workerId base hb k hk).2
    have hspec := workerHandleFailure_spec intent e t now (k : Int) hrc
    cases hW : workerHandleFailure intent e t now with
    | scheduled job =>
      have hcond := hspec.1.mp ⟨job, hW⟩
      have hk3 : k < 3 := by exact_mod_cast hcond.2.2
      have hjob := hspec.2.1 job hW
      have hjid : job.intent.id = workerId base (k + 1) := by
        rw [hjob.1, hbp, retag_eq_workerId base k hk3]
      have hrec := ih (k + 1) (by omega) job.intent hjid
      simp only [scheduledRetries, hW]
      omega
    | alreadyProcessed => simp [scheduledRetries, hW]
    | maxRetries ty => simp [scheduledRetries, hW]
    | permanent ty => simp [scheduledRetries, hW]
    | circuitSkip ty => simp [scheduledRetries, hW]

/-- Claim C5: the worker schedules a retry only while the id's parsed
retry count is below 3 (and the error is retryable and the breaker did
not just trip); each scheduled job re-tags the id with count `k + 1`, so
a failure chain for one base id schedules — hence the scheduler
dispatches — at most 3 retries; and a retryable failure finding the
count at 3 takes the max-retries exit (counter incremented, no job
created). -/
theorem worker_retry_cap_three (base : String) (hb : '_' ∉ base.data) :
    (∀ (events : List (String × Bool × Int)) (intent : IntentM),
      intent.id = base → scheduledRetries intent events ≤ 3) ∧
    (∀ (k : Nat), k ≤ 3 → ∀ intent : IntentM, intent.id = workerId base k →
      ∀ (e : String) (t : Bool) (now : Int),
      ((∃ job, workerHandleFailure intent e t now = .scheduled job) ↔
        ((shouldRetryError e).1 = true ∧ t = false ∧ (k : Int) < 3)) ∧
      (∀ job, workerHandleFailure intent e t now = .scheduled job →
        job.intent.id = workerId base (k + 1) ∧
        job.retryCount = (k : Int) + 1)) ∧
    (∀ intent : IntentM, intent.id = workerId base 3 →
      ∀ (e : String) (t : Bool) (now : Int),
      (shouldRetryError e).1 = true → t = false →
      workerHandleFailure intent e t now = .maxRetries (shouldRetryError e).2) := by
  refine ⟨?_, ?_, ?_⟩
  · intro events intent hid
    have h := scheduledRetries_le base hb events 0 (by omega) intent hid
    omega
  · intro k hk intent hid e t now
    have hrc : retryCountOfId intent.id = (k : Int) := by
      rw [hid]; exact (retryCountOfId_workerId base hb k hk).1
    have hbp : basePartOfId intent.id = base := by
      rw [hid]; exact (retryCountOfId_workerId base hb k hk).2
    have hspec := workerHandleFailure_spec intent e t now (k : Int) hrc
    refine ⟨hspec.1, ?_⟩
    intro job hW
    have hcond := hspec.1.mp ⟨job, hW⟩
    have hk3 : k < 3 := by exact_mod_cast hcond.2.2
    have hjob := hspec.2.1 job hW
    exact ⟨by rw [hjob.1, hbp, retag_eq_workerId base k hk3], hjob.2⟩
  · intro intent hid e t now hsr ht
    have hrc : retryCountOfId intent.id = (3 : Int) := by
      rw [hid]; exact_mod_cast (retryCountOfId_workerId base hb 3 (by omega)).1
    have hspec := workerHandleFailure_spec intent e t now 3 hrc
    exact hspec.2.2 hsr ht (by omega)

/-- Witness for C5 at base id `"0xaa"`: four straight retryable failures
schedule at most 3 retries, and the attempt that finds the count at 3
takes the max-retries exit. -/
theorem worker_retry_cap_three_witness :
    ('_' ∉ ("0xaa" : String).data) ∧
    scheduledRetries intentEx
      [("boom", false, 0), ("boom", false, 0), ("boom", false, 0),
        ("boom", false, 0), ("boom", false, 0)] ≤ 3 ∧
    workerHandleFailure { intentEx with id := "0xaa_retry_3" } "boom" false 0 =
      .maxRetries "unknown_error" := by
  have h := worker_retry_cap_three "0xaa" (by decide)
  refine ⟨by decide, h.1 _ intentEx rfl, ?_⟩
  have h3 := h.2.2 { intentEx with id := "0xaa_retry_3" } rfl "boom" false 0
    (by decide) rfl
  rw [h3]
  decide

end Speedrunner
